import Mathlib

/-!
Verification of the anima-engine input pipeline and math primitives.

This file gives a shallow embedding of the stateful event filters
(`Cursor`, `Button`, `SelectableArea` from `src/input/intermediate/`) and of
the relevant math operations (`Matrix::inv` from `src/math/matrix.rs`,
`Quaternion::interpolate` from `src/math/quaternion.rs`), and proves the
specification claims about them.

Modelling conventions:
* Rust `i32`/`u32` become `Int`/`Nat` (no arithmetic in the filters can
  overflow a machine integer in any claim considered here; the only integer
  operations are subtraction and comparison).
* Rust `Option<T>` becomes `Option T`; a `panic!` or an `unwrap()` of `None`
  is modelled by an `Option`-valued result where `none` denotes the panic.
* `f32` in the matrix code is idealised as exact rational arithmetic `ℚ`
  (the inversion code only adds, subtracts, multiplies, divides and compares
  with `0.0`); `f32` in the quaternion code is idealised as real arithmetic
  `ℝ` because it uses the transcendental functions `acos` and `sin`.
* `std::collections::HashMap<MouseButton, bool>` is modelled by an
  association list whose `insert` overwrites in place; the real map's
  iteration order is unspecified, and the claims proved here never depend
  on it (each one involves at most one held button, or no sweep at all).
* glutin's `Event` enum has many variants beyond the three the filters
  inspect; all the others are collapsed into a single passthrough
  constructor `OtherRaw` carrying an opaque tag.
-/

set_option maxHeartbeats 1600000

namespace Anima

/-- Mouse buttons, after glutin's `MouseButton` enum. -/
inductive MouseButton where
  | Left
  | Right
  | Middle
  | Other (code : Nat)
deriving DecidableEq

/-- Pressed/released state of a physical button, after glutin's `ElementState`. -/
inductive ElementState where
  | Pressed
  | Released
deriving DecidableEq

/-- Phases of a touch gesture, after glutin's `TouchPhase`. -/
inductive TouchPhase where
  | Started
  | Moved
  | Ended
  | Cancelled
deriving DecidableEq

/-- A touch occurrence, after glutin's `Touch`.  The source stores the
location as `(f64, f64)` and casts to `i32` before use; the embedding keeps
the already-cast integer coordinates. -/
structure TouchData where
  phase : TouchPhase
  location : Int × Int
  tid : Nat
deriving DecidableEq

/-- Raw device events (`glium::glutin::Event`); only the three variants the
filters inspect are kept, all others are collapsed into `OtherRaw`. -/
inductive RawEvent where
  | MouseMoved (x y : Int)
  | MouseInput (state : ElementState) (button : MouseButton)
  | Touch (t : TouchData)
  | OtherRaw (tag : Nat)
deriving DecidableEq

/-- Semantic gesture events, after `IntermediateEvent` in
`src/input/intermediate_event.rs`. -/
inductive IntermediateEvent where
  | ButtonPressed (id : Nat)
  | ButtonCanceled (id : Nat)
  | ButtonReleased (id : Nat)
  | CursorPressed (x y : Int) (button : MouseButton)
  | CursorReleased (x y : Int) (button : MouseButton)
  | SelectablePressed (id : Nat) (x y : Int)
  | SelectableDragged (id : Nat) (x y : Int)
  | SelectableReleased (id : Nat) (x y : Int)
  | SelectableSpecialPressed (id : Nat) (x y : Int)
  | SelectableSpecialDragged (id : Nat) (x y : Int)
  | SelectableSpecialReleased (id : Nat) (x y : Int)
deriving DecidableEq

/-- The unit flowing through the pipeline, after `InputEvent` in
`src/input/input_event.rs`. -/
inductive InputEvent where
  | Raw (e : RawEvent)
  | Intermediate (e : IntermediateEvent)
deriving DecidableEq

/-- Configuration of the secondary gesture channel, after `SpecialSelect` in
`src/input/intermediate/area/selectable_area.rs`; the `Duration` is modelled
as nanoseconds. -/
structure SpecialSelect where
  button : MouseButton
  touch_time : Nat
deriving DecidableEq

/-- State of the selectable-area filter, after `SelectableArea` in
`src/input/intermediate/area/selectable_area.rs`. -/
structure SelectableArea where
  id : Nat
  x : Int
  y : Int
  width : Int
  height : Int
  special : Option SpecialSelect
  pressed : Option (Int × Int)
  special_pressed : Option (Int × Int)
deriving DecidableEq

/-- `SelectableArea::new`. -/
def SelectableArea.new (id : Nat) (x y width height : Int)
    (special : Option SpecialSelect) : SelectableArea :=
  { id := id, x := x, y := y, width := width, height := height,
    special := special, pressed := none, special_pressed := none }

/-- `SelectableArea::inside`. -/
def SelectableArea.inside (a : SelectableArea) (px py : Int) : Bool :=
  let dx := px - a.x
  let dy := py - a.y
  decide (0 ≤ dx) && decide (dx ≤ a.width) &&
  decide (0 ≤ dy) && decide (dy ≤ a.height)

/-- The guard `self.special.is_some() && self.special.unwrap().button == button`
used by the special-channel match arms (this `unwrap` is protected by the
`is_some` conjunct in the same guard, so it is encoded directly as a match). -/
def SelectableArea.specialIs (a : SelectableArea) (b : MouseButton) : Bool :=
  match a.special with
  | some s => s.button == b
  | none => false

/-- One iteration of the closure inside `SelectableArea::process`
(`src/input/intermediate/area/selectable_area.rs`, lines 52–127).  The match
arms are translated in source order; `none` models a panicking
`Option::unwrap` of a `None` slot (the arms at lines 66 and 103). -/
def areaStep (a : SelectableArea) (event : InputEvent) :
    Option (InputEvent × SelectableArea) :=
  match event with
  | .Intermediate (.CursorPressed x y b) =>
    if b == .Left && a.pressed.isNone && a.inside x y then
      some (.Intermediate (.SelectablePressed a.id x y),
            { a with pressed := some (x, y) })
    else if b == .Left && a.inside x y then
      match a.pressed with
      | none => none
      | some old =>
        if old == (x, y) then
          some (.Intermediate (.SelectablePressed a.id x y), a)
        else
          some (.Intermediate (.SelectableDragged a.id x y), a)
    else if a.special_pressed.isNone && a.inside x y && a.specialIs b then
      some (.Intermediate (.SelectableSpecialPressed a.id x y),
            { a with special_pressed := some (x, y) })
    else if a.inside x y && a.specialIs b then
      match a.special_pressed with
      | none => none
      | some old =>
        if old == (x, y) then
          some (.Intermediate (.SelectableSpecialPressed a.id x y), a)
        else
          some (.Intermediate (.SelectableSpecialDragged a.id x y), a)
    else
      some (event, a)
  | .Intermediate (.CursorReleased x y b) =>
    if b == .Left && a.pressed.isSome && a.inside x y then
      some (.Intermediate (.SelectableReleased a.id x y),
            { a with pressed := none })
    else if a.special_pressed.isSome && a.inside x y && a.specialIs b then
      some (.Intermediate (.SelectableSpecialReleased a.id x y),
            { a with special_pressed := none })
    else
      some (event, a)
  | _ => some (event, a)

/-- `SelectableArea::process`: fold `areaStep` over the batch, threading the
mutable state and propagating a panic as `none`.  Every arm of the source
closure returns `Some`, so the output batch has one event per input event. -/
def areaProcess : SelectableArea → List InputEvent →
    Option (List InputEvent × SelectableArea)
  | a, [] => some ([], a)
  | a, e :: rest =>
    match areaStep a e with
    | none => none
    | some (oe, a') =>
      match areaProcess a' rest with
      | none => none
      | some (os, a'') => some (oe :: os, a'')

/-- State of the button filter, after `Button` in
`src/input/intermediate/button.rs`. -/
structure Button where
  id : Nat
  x : Int
  y : Int
  width : Int
  height : Int
  pressed : Bool
deriving DecidableEq

/-- `Button::new`. -/
def Button.new (id : Nat) (x y width height : Int) : Button :=
  { id := id, x := x, y := y, width := width, height := height,
    pressed := false }

/-- `Button::inside`. -/
def Button.inside (b : Button) (px py : Int) : Bool :=
  let dx := px - b.x
  let dy := py - b.y
  decide (0 ≤ dx) && decide (dx ≤ b.width) &&
  decide (0 ≤ dy) && decide (dy ≤ b.height)

/-- One iteration of the closure inside `Button::process`
(`src/input/intermediate/button.rs`, lines 50–138), in source arm order.
Every arm returns `Some`, so the step is total and produces exactly one
output event. -/
def buttonStep (b : Button) (event : InputEvent) : InputEvent × Button :=
  match event with
  | .Intermediate (.CursorPressed x y .Left) =>
    if b.inside x y then
      (.Intermediate (.ButtonPressed b.id), { b with pressed := true })
    else if b.pressed then
      (.Intermediate (.ButtonPressed b.id), b)
    else
      (event, b)
  | .Intermediate (.CursorReleased x y .Left) =>
    if b.pressed then
      if b.inside x y then
        (.Intermediate (.ButtonReleased b.id), { b with pressed := false })
      else
        (.Intermediate (.ButtonCanceled b.id), { b with pressed := false })
    else
      (event, b)
  | .Raw (.Touch t) =>
    match t.phase with
    | .Started =>
      if b.pressed then
        (.Intermediate (.ButtonPressed b.id), b)
      else if b.inside t.location.1 t.location.2 then
        (.Intermediate (.ButtonPressed b.id), { b with pressed := true })
      else
        (.Raw (.Touch t), b)
    | .Moved =>
      if b.pressed then
        (.Intermediate (.ButtonPressed b.id), b)
      else
        (.Raw (.Touch t), b)
    | .Ended =>
      if b.pressed then
        if b.inside t.location.1 t.location.2 then
          (.Intermediate (.ButtonReleased b.id), { b with pressed := false })
        else
          (.Intermediate (.ButtonCanceled b.id), { b with pressed := false })
      else
        (.Raw (.Touch t), b)
    | .Cancelled =>
      if b.pressed then
        (.Intermediate (.ButtonCanceled b.id), b)
      else
        (.Raw (.Touch t), b)
  | _ => (event, b)

/-- `Button::process`: fold `buttonStep` over the batch, threading the state. -/
def buttonProcess : Button → List InputEvent → List InputEvent × Button
  | b, [] => ([], b)
  | b, e :: rest =>
    let (oe, b') := buttonStep b e
    let (os, b'') := buttonProcess b' rest
    (oe :: os, b'')

/-- State of the cursor filter, after `Cursor` in
`src/input/intermediate/cursor.rs`.  The `HashMap<MouseButton, bool>` is
modelled as an association list (see the header comment). -/
structure Cursor where
  pos : Option (Int × Int)
  pressed : List (MouseButton × Bool)
deriving DecidableEq

/-- `Cursor::new`. -/
def Cursor.new : Cursor := { pos := none, pressed := [] }

/-- `HashMap::insert`: overwrite the binding in place if the key is present,
otherwise append it. -/
def hmInsert : List (MouseButton × Bool) → MouseButton → Bool →
    List (MouseButton × Bool)
  | [], k, v => [(k, v)]
  | (k', v') :: rest, k, v =>
    if k' == k then (k, v) :: rest else (k', v') :: hmInsert rest k v

/-- One iteration of the closure inside `Cursor::process`
(`src/input/intermediate/cursor.rs`, lines 33–58); `none` in the first
component means the raw event is consumed (filtered out). -/
def cursorStep (c : Cursor) (event : InputEvent) : Option InputEvent × Cursor :=
  match event with
  | .Raw (.MouseMoved x y) =>
    (none, { c with pos := some (x, y) })
  | .Raw (.MouseInput .Pressed b) =>
    (none, { c with pressed := hmInsert c.pressed b true })
  | .Raw (.MouseInput .Released b) =>
    let c' := { c with pressed := hmInsert c.pressed b false }
    match c.pos with
    | some (x, y) => (some (.Intermediate (.CursorReleased x y b)), c')
    | none => (none, c')
  | _ => (some event, c)

/-- The `filter_map` part of `Cursor::process`, before the end-of-batch sweep. -/
def cursorFilterMap : Cursor → List InputEvent → List InputEvent × Cursor
  | c, [] => ([], c)
  | c, e :: rest =>
    let (oe, c') := cursorStep c e
    let (os, c'') := cursorFilterMap c' rest
    (match oe with
     | some ev => ev :: os
     | none => os, c'')

/-- The end-of-batch sweep of `Cursor::process`
(`src/input/intermediate/cursor.rs`, lines 60–68): if the position is known,
append one `CursorPressed` per currently-held button. -/
def cursorSweep (c : Cursor) : List InputEvent :=
  match c.pos with
  | some (x, y) =>
    c.pressed.filterMap fun p =>
      if p.2 then some (.Intermediate (.CursorPressed x y p.1)) else none
  | none => []

/-- `Cursor::process`: run the filter over the batch, then append the sweep
computed from the final state. -/
def cursorProcess (c : Cursor) (input : List InputEvent) :
    List InputEvent × Cursor :=
  let (out, c') := cursorFilterMap c input
  (out ++ cursorSweep c', c')

/-- Feed a sequence of per-frame batches through `Cursor::process`, collecting
all output batches. -/
def cursorProcessAll : Cursor → List (List InputEvent) →
    List (List InputEvent) × Cursor
  | c, [] => ([], c)
  | c, batch :: rest =>
    let (out, c') := cursorProcess c batch
    let (outs, c'') := cursorProcessAll c' rest
    (out :: outs, c'')

/-- A 4×4 graphics matrix, after `Matrix` in `src/math/matrix.rs`: the field
`mK` is `array[K]` of the source (columns incremented first, so the entry at
row `r`, column `c` is `m(4c+r)`); `f32` is idealised as `ℚ`. -/
structure Matrix where
  m0 : ℚ
  m1 : ℚ
  m2 : ℚ
  m3 : ℚ
  m4 : ℚ
  m5 : ℚ
  m6 : ℚ
  m7 : ℚ
  m8 : ℚ
  m9 : ℚ
  m10 : ℚ
  m11 : ℚ
  m12 : ℚ
  m13 : ℚ
  m14 : ℚ
  m15 : ℚ
deriving DecidableEq

/-- `Matrix::ident`. -/
def Matrix.ident : Matrix :=
  ⟨1, 0, 0, 0, 0, 1, 0, 0, 0, 0, 1, 0, 0, 0, 0, 1⟩

/-- The local `s0` of `Matrix::inv`. -/
def Matrix.s0 (m : Matrix) : ℚ := m.m0 * m.m5 - m.m1 * m.m4

/-- The local `s1` of `Matrix::inv`. -/
def Matrix.s1 (m : Matrix) : ℚ := m.m0 * m.m9 - m.m1 * m.m8

/-- The local `s2` of `Matrix::inv`. -/
def Matrix.s2 (m : Matrix) : ℚ := m.m0 * m.m13 - m.m1 * m.m12

/-- The local `s3` of `Matrix::inv`. -/
def Matrix.s3 (m : Matrix) : ℚ := m.m4 * m.m9 - m.m5 * m.m8

/-- The local `s4` of `Matrix::inv`. -/
def Matrix.s4 (m : Matrix) : ℚ := m.m4 * m.m13 - m.m5 * m.m12

/-- The local `s5` of `Matrix::inv`. -/
def Matrix.s5 (m : Matrix) : ℚ := m.m8 * m.m13 - m.m9 * m.m12

/-- The local `c5` of `Matrix::inv`. -/
def Matrix.c5 (m : Matrix) : ℚ := m.m10 * m.m15 - m.m11 * m.m14

/-- The local `c4` of `Matrix::inv`. -/
def Matrix.c4 (m : Matrix) : ℚ := m.m6 * m.m15 - m.m7 * m.m14

/-- The local `c3` of `Matrix::inv`. -/
def Matrix.c3 (m : Matrix) : ℚ := m.m6 * m.m11 - m.m7 * m.m10

/-- The local `c2` of `Matrix::inv`. -/
def Matrix.c2 (m : Matrix) : ℚ := m.m2 * m.m15 - m.m3 * m.m14

/-- The local `c1` of `Matrix::inv`. -/
def Matrix.c1 (m : Matrix) : ℚ := m.m2 * m.m11 - m.m3 * m.m10

/-- The local `c0` of `Matrix::inv`. -/
def Matrix.c0 (m : Matrix) : ℚ := m.m2 * m.m7 - m.m3 * m.m6

/-- The local `det` of `Matrix::inv` (`src/math/matrix.rs`, line 241). -/
def Matrix.det (m : Matrix) : ℚ :=
  m.s0 * m.c5 - m.s1 * m.c4 + m.s2 * m.c3 +
  m.s3 * m.c2 - m.s4 * m.c1 + m.s5 * m.c0

/-- Matrix multiplication, after `impl Mul<Matrix> for Matrix`
(`src/math/matrix.rs`, lines 296–324). -/
def Matrix.mul (l r : Matrix) : Matrix :=
  ⟨l.m0 * r.m0  + l.m4 * r.m1  + l.m8  * r.m2  + l.m12 * r.m3,
   l.m1 * r.m0  + l.m5 * r.m1  + l.m9  * r.m2  + l.m13 * r.m3,
   l.m2 * r.m0  + l.m6 * r.m1  + l.m10 * r.m2  + l.m14 * r.m3,
   l.m3 * r.m0  + l.m7 * r.m1  + l.m11 * r.m2  + l.m15 * r.m3,
   l.m0 * r.m4  + l.m4 * r.m5  + l.m8  * r.m6  + l.m12 * r.m7,
   l.m1 * r.m4  + l.m5 * r.m5  + l.m9  * r.m6  + l.m13 * r.m7,
   l.m2 * r.m4  + l.m6 * r.m5  + l.m10 * r.m6  + l.m14 * r.m7,
   l.m3 * r.m4  + l.m7 * r.m5  + l.m11 * r.m6  + l.m15 * r.m7,
   l.m0 * r.m8  + l.m4 * r.m9  + l.m8  * r.m10 + l.m12 * r.m11,
   l.m1 * r.m8  + l.m5 * r.m9  + l.m9  * r.m10 + l.m13 * r.m11,
   l.m2 * r.m8  + l.m6 * r.m9  + l.m10 * r.m10 + l.m14 * r.m11,
   l.m3 * r.m8  + l.m7 * r.m9  + l.m11 * r.m10 + l.m15 * r.m11,
   l.m0 * r.m12 + l.m4 * r.m13 + l.m8  * r.m14 + l.m12 * r.m15,
   l.m1 * r.m12 + l.m5 * r.m13 + l.m9  * r.m14 + l.m13 * r.m15,
   l.m2 * r.m12 + l.m6 * r.m13 + l.m10 * r.m14 + l.m14 * r.m15,
   l.m3 * r.m12 + l.m7 * r.m13 + l.m11 * r.m14 + l.m15 * r.m15⟩

/-- `Matrix::inv` (`src/math/matrix.rs`, lines 224–267): the
`panic!("... is not invertable.")` on a zero determinant is modelled as
`none`; `det.recip()` is `det⁻¹`. -/
def Matrix.inv (m : Matrix) : Option Matrix :=
  if m.det = 0 then none
  else
    let inv_det := m.det⁻¹
    some
      ⟨( m.m5 * m.c5 - m.m9  * m.c4 + m.m13 * m.c3) * inv_det,
       (-m.m1 * m.c5 + m.m9  * m.c2 - m.m13 * m.c1) * inv_det,
       ( m.m1 * m.c4 - m.m5  * m.c2 + m.m13 * m.c0) * inv_det,
       (-m.m1 * m.c3 + m.m5  * m.c1 - m.m9  * m.c0) * inv_det,
       (-m.m4 * m.c5 + m.m8  * m.c4 - m.m12 * m.c3) * inv_det,
       ( m.m0 * m.c5 - m.m8  * m.c2 + m.m12 * m.c1) * inv_det,
       (-m.m0 * m.c4 + m.m4  * m.c2 - m.m12 * m.c0) * inv_det,
       ( m.m0 * m.c3 - m.m4  * m.c1 + m.m8  * m.c0) * inv_det,
       ( m.m7 * m.s5 - m.m11 * m.s4 + m.m15 * m.s3) * inv_det,
       (-m.m3 * m.s5 + m.m11 * m.s2 - m.m15 * m.s1) * inv_det,
       ( m.m3 * m.s4 - m.m7  * m.s2 + m.m15 * m.s0) * inv_det,
       (-m.m3 * m.s3 + m.m7  * m.s1 - m.m11 * m.s0) * inv_det,
       (-m.m6 * m.s5 + m.m10 * m.s4 - m.m14 * m.s3) * inv_det,
       ( m.m2 * m.s5 - m.m10 * m.s2 + m.m14 * m.s1) * inv_det,
       (-m.m2 * m.s4 + m.m6  * m.s2 - m.m14 * m.s0) * inv_det,
       ( m.m2 * m.s3 - m.m6  * m.s1 + m.m10 * m.s0) * inv_det⟩

/-- Determinant of a 3×3 matrix with rows `(a,b,c)`, `(d,e,f)`, `(g,h,i)`. -/
def det3 (a b c d e f g h i : ℚ) : ℚ :=
  a * (e * i - f * h) - b * (d * i - f * g) + c * (d * h - e * g)

/-- Modelled from the spec: the mathematical determinant of the 4×4 matrix,
written independently of `Matrix::inv` as the cofactor expansion along the
first row (entry at row `r`, column `c` being `m(4c+r)`).  Used to check that
the code's `det` is the true determinant. -/
def Matrix.detExpand (m : Matrix) : ℚ :=
  m.m0 * det3 m.m5 m.m9 m.m13 m.m6 m.m10 m.m14 m.m7 m.m11 m.m15
  - m.m4 * det3 m.m1 m.m9 m.m13 m.m2 m.m10 m.m14 m.m3 m.m11 m.m15
  + m.m8 * det3 m.m1 m.m5 m.m13 m.m2 m.m6 m.m14 m.m3 m.m7 m.m15
  - m.m12 * det3 m.m1 m.m5 m.m9 m.m2 m.m6 m.m10 m.m3 m.m7 m.m11

/-- A quaternion, after `Quaternion` in `src/math/quaternion.rs`; `f32` is
idealised as `ℝ` because `interpolate` uses `acos` and `sin`. -/
structure Quat where
  x : ℝ
  y : ℝ
  z : ℝ
  w : ℝ

/-- `Quaternion::ident`. -/
def Quat.ident : Quat := ⟨0, 0, 0, 1⟩

/-- `Quaternion::dot` (`src/math/quaternion.rs`, lines 174–179). -/
def Quat.dot (q o : Quat) : ℝ :=
  q.x * o.x + q.y * o.y + q.z * o.z + q.w * o.w

/-- Componentwise negation; two quaternions `q` and `q.neg` represent
exactly-opposed (antipodal) points on the quaternion sphere. -/
def Quat.neg (q : Quat) : Quat := ⟨-q.x, -q.y, -q.z, -q.w⟩

/-- `Quaternion::interpolate` (`src/math/quaternion.rs`, lines 218–234): the
`panic!("Cannot interpolate between two opposing rotations.")` on a zero
`sin_htheta` is modelled as `none`. -/
noncomputable def Quat.interpolate (q : Quat) (o : Quat) (ratio : ℝ) :
    Option Quat :=
  let cos_htheta := q.dot o
  let htheta := Real.arccos cos_htheta
  let sin_htheta := Real.sin htheta
  if sin_htheta = 0 then none
  else
    let ratio1 := Real.sin ((1 - ratio) * htheta) / sin_htheta
    let ratio2 := Real.sin (ratio * htheta) / sin_htheta
    some ⟨q.x * ratio1 + o.x * ratio2,
          q.y * ratio1 + o.y * ratio2,
          q.z * ratio1 + o.z * ratio2,
          q.w * ratio1 + o.w * ratio2⟩

/-- Does the event match `InputEvent::Raw(Event::MouseMoved(..))`? -/
def isMouseMovedEv : InputEvent → Bool
  | .Raw (.MouseMoved _ _) => true
  | _ => false

/-- Is the event a raw device event? -/
def isRawEv : InputEvent → Bool
  | .Raw _ => true
  | _ => false

/-- Is the event an intermediate `CursorPressed` or `CursorReleased`? -/
def isCursorEv : InputEvent → Bool
  | .Intermediate (.CursorPressed _ _ _) => true
  | .Intermediate (.CursorReleased _ _ _) => true
  | _ => false

/-- Is the event one of the three special-channel selectable events? -/
def isSpecialEv : InputEvent → Bool
  | .Intermediate (.SelectableSpecialPressed _ _ _) => true
  | .Intermediate (.SelectableSpecialDragged _ _ _) => true
  | .Intermediate (.SelectableSpecialReleased _ _ _) => true
  | _ => false

/-- C1 counterexample.  An area whose primary slot holds `(50,50)` and which
receives an in-rect left press at `(60,60)` emits `SelectableDragged` but
leaves the stored primary point at `(50,50)`: the state coming out of
`process` is the unchanged `a`, not one updated to `(60,60)` as the claim
requires. -/
theorem areaDragKeepsStoredPointCex :
    (let a : SelectableArea :=
      { id := 3, x := 40, y := 40, width := 20, height := 20,
        special := none, pressed := some (50, 50), special_pressed := none }
     areaProcess a [.Intermediate (.CursorPressed 60 60 .Left)] =
        some ([.Intermediate (.SelectableDragged 3 60 60)], a) ∧
      a.pressed = some (50, 50) ∧ some ((50 : Int), (50 : Int)) ≠ some (60, 60)) := by
  decide

/-- C1 (amended).  With the primary slot holding `some (ox, oy)` and an
in-rect left press at `(x, y)`: if the point equals the stored one the area
emits `SelectablePressed`, otherwise it emits `SelectableDragged`; in both
cases the state — including the stored primary point — is unchanged.
Concretely, presses at `(50,50)` then `(50,51)` emit `SelectablePressed`
then `SelectableDragged(3,50,51)`. -/
theorem areaRepressVsDrag :
    (∀ (a : SelectableArea) (x y ox oy : Int),
      a.pressed = some (ox, oy) → a.inside x y = true →
      areaStep a (.Intermediate (.CursorPressed x y .Left)) =
        some (if (ox, oy) = (x, y)
              then (.Intermediate (.SelectablePressed a.id x y), a)
              else (.Intermediate (.SelectableDragged a.id x y), a))) ∧
    (let a0 := SelectableArea.new 3 40 40 20 20 none
     let a1 : SelectableArea := { a0 with pressed := some (50, 50) }
     areaProcess a0 [.Intermediate (.CursorPressed 50 50 .Left)] =
        some ([.Intermediate (.SelectablePressed 3 50 50)], a1) ∧
     areaProcess a1 [.Intermediate (.CursorPressed 50 51 .Left)] =
        some ([.Intermediate (.SelectableDragged 3 50 51)], a1)) := by
  refine ⟨?_, by decide⟩
  intro a x y ox oy hp hin
  by_cases hxy : (ox, oy) = (x, y) <;>
    simp [areaStep, hp, hin, hxy]

/-- C1 witness: the general statement applied to a concrete area whose
stored point is `(50,50)`, pressed at `(50,51)`. -/
theorem areaRepressVsDragWitness :
    areaStep
      { id := 3, x := 40, y := 40, width := 20, height := 20,
        special := none, pressed := some (50, 50), special_pressed := none }
      (.Intermediate (.CursorPressed 50 51 .Left)) =
      some (.Intermediate (.SelectableDragged 3 50 51),
            { id := 3, x := 40, y := 40, width := 20, height := 20,
              special := none, pressed := some (50, 50),
              special_pressed := none }) := by
  have h := areaRepressVsDrag.1
    { id := 3, x := 40, y := 40, width := 20, height := 20,
      special := none, pressed := some (50, 50), special_pressed := none }
    50 51 50 50 (by decide) (by decide)
  simpa using h

/-- C2 counterexample.  A fresh cursor fed
`[MouseMoved(50,50), MouseInput(Pressed,Left)]` emits `CursorPressed(50,50,Left)`
already in that same `process` call (via the end-of-batch sweep), so the
output of the first call is not empty as the claim requires. -/
theorem cursorPressSameCallCex :
    (cursorProcess Cursor.new
        [.Raw (.MouseMoved 50 50), .Raw (.MouseInput .Pressed .Left)]).1 =
      [.Intermediate (.CursorPressed 50 50 .Left)] ∧
    (cursorProcess Cursor.new
        [.Raw (.MouseMoved 50 50), .Raw (.MouseInput .Pressed .Left)]).1 ≠
      ([] : List InputEvent) := by
  decide

/-- C2 (amended).  A fresh cursor fed
`[MouseMoved(50,50), MouseInput(Pressed,Left)]` emits exactly one
`CursorPressed(50,50,Left)` in that same call, and a subsequent call with an
empty batch again emits exactly one `CursorPressed(50,50,Left)` (the press
is level-triggered, re-emitted each frame while held). -/
theorem cursorLevelTriggeredPress :
    (let r1 := cursorProcess Cursor.new
        [.Raw (.MouseMoved 50 50), .Raw (.MouseInput .Pressed .Left)]
     r1.1 = [.Intermediate (.CursorPressed 50 50 .Left)] ∧
     (cursorProcess r1.2 []).1 = [.Intermediate (.CursorPressed 50 50 .Left)]) := by
  decide

/-- C3.  On a raw touch event in phase `Cancelled`: if the button is in the
`Pressed` state it emits `ButtonCanceled(id)` and the state is returned
unchanged — in particular the `pressed` flag remains `true`; if the button is
not pressed, the touch event is passed through unchanged. -/
theorem buttonTouchCancelKeepsPressed (b : Button) (t : TouchData)
    (h : t.phase = .Cancelled) :
    (b.pressed = true →
      buttonStep b (.Raw (.Touch t)) =
        (.Intermediate (.ButtonCanceled b.id), b)) ∧
    (b.pressed = false →
      buttonStep b (.Raw (.Touch t)) = (.Raw (.Touch t), b)) := by
  constructor <;> intro hp <;> simp [buttonStep, h, hp]

/-- C3 witness: a concrete pressed button receiving a cancelled touch keeps
`pressed = true` and emits `ButtonCanceled(3)`. -/
theorem buttonTouchCancelKeepsPressedWitness :
    buttonStep
      { id := 3, x := 40, y := 40, width := 20, height := 20, pressed := true }
      (.Raw (.Touch { phase := .Cancelled, location := (50, 50), tid := 0 })) =
      (.Intermediate (.ButtonCanceled 3),
       { id := 3, x := 40, y := 40, width := 20, height := 20,
         pressed := true }) :=
  (buttonTouchCancelKeepsPressed
    { id := 3, x := 40, y := 40, width := 20, height := 20, pressed := true }
    { phase := .Cancelled, location := (50, 50), tid := 0 } rfl).1 rfl

/-- C4.  A pressed button receiving `CursorReleased(x,y,Left)` transitions to
`Released` and emits `ButtonReleased(id)` when `(x,y)` is inside the
rectangle, `ButtonCanceled(id)` when outside; concretely, a press inside the
rectangle followed by a release outside yields exactly `[ButtonPressed(3)]`
then exactly `[ButtonCanceled(3)]` — never `ButtonReleased`. -/
theorem buttonReleaseInsideOutside :
    (∀ (b : Button) (x y : Int), b.pressed = true →
      buttonStep b (.Intermediate (.CursorReleased x y .Left)) =
        (if b.inside x y
         then (.Intermediate (.ButtonReleased b.id), { b with pressed := false })
         else (.Intermediate (.ButtonCanceled b.id), { b with pressed := false }))) ∧
    (let b0 := Button.new 3 40 40 20 20
     let b1 : Button := { b0 with pressed := true }
     buttonProcess b0 [.Intermediate (.CursorPressed 50 50 .Left)] =
        ([.Intermediate (.ButtonPressed 3)], b1) ∧
     buttonProcess b1 [.Intermediate (.CursorReleased 100 100 .Left)] =
        ([.Intermediate (.ButtonCanceled 3)], b0)) := by
  refine ⟨?_, by decide⟩
  intro b x y hp
  by_cases hin : b.inside x y <;> simp [buttonStep, hp, hin]

/-- C4 witness: the general statement applied to a concrete pressed button
released outside its rectangle. -/
theorem buttonReleaseInsideOutsideWitness :
    buttonStep
      { id := 3, x := 40, y := 40, width := 20, height := 20, pressed := true }
      (.Intermediate (.CursorReleased 100 100 .Left)) =
      (.Intermediate (.ButtonCanceled 3),
       { id := 3, x := 40, y := 40, width := 20, height := 20,
         pressed := false }) := by
  have h := buttonReleaseInsideOutside.1
    { id := 3, x := 40, y := 40, width := 20, height := 20, pressed := true }
    100 100 rfl
  simpa using h

/-- While no position is known, a non-move event leaves the position unknown
and is either consumed or passed through verbatim — nothing is synthesized. -/
theorem cursorStepPosNone (c : Cursor) (e : InputEvent) (h : c.pos = none)
    (hm : isMouseMovedEv e = false) :
    (cursorStep c e).2.pos = none ∧
    ((cursorStep c e).1 = none ∨ (cursorStep c e).1 = some e) := by
  rcases e with re | ie
  · rcases re with ⟨x, y⟩ | ⟨st, b⟩ | t | tag
    · simp [isMouseMovedEv] at hm
    · rcases st <;> simp [cursorStep, h]
    · simp [cursorStep, h]
    · simp [cursorStep, h]
  · simp [cursorStep, h]

/-- While no position is known and the batch holds no move event, the filter
part of `Cursor::process` keeps the position unknown and its output is a
sublist of the input. -/
theorem cursorFilterMapPosNone (batch : List InputEvent) :
    ∀ c : Cursor, c.pos = none →
    (∀ e ∈ batch, isMouseMovedEv e = false) →
    (cursorFilterMap c batch).2.pos = none ∧
    (cursorFilterMap c batch).1.Sublist batch := by
  induction batch with
  | nil =>
    intro c h _
    simpa [cursorFilterMap] using h
  | cons e rest ih =>
    intro c h hb
    have he := hb e (List.mem_cons_self _ _)
    have hr : ∀ e' ∈ rest, isMouseMovedEv e' = false :=
      fun e' h' => hb e' (List.mem_cons_of_mem _ h')
    obtain ⟨h1, h2⟩ := cursorStepPosNone c e h he
    rcases hp : cursorStep c e with ⟨oe, c'⟩
    rw [hp] at h1 h2
    obtain ⟨ih1, ih2⟩ := ih c' h1 hr
    rcases h2 with h2 | h2 <;> subst h2 <;>
      simp only [cursorFilterMap, hp] <;>
      exact ⟨ih1, by first
        | exact List.Sublist.cons e ih2
        | exact List.Sublist.cons₂ e ih2⟩

/-- While no position is known and the batch holds no move event,
`Cursor::process` keeps the position unknown, appends no sweep events, and
its output is a sublist of the input. -/
theorem cursorProcessPosNone (c : Cursor) (batch : List InputEvent)
    (h : c.pos = none) (hb : ∀ e ∈ batch, isMouseMovedEv e = false) :
    (cursorProcess c batch).2.pos = none ∧
    (cursorProcess c batch).1.Sublist batch := by
  obtain ⟨h1, h2⟩ := cursorFilterMapPosNone batch c h hb
  rcases hp : cursorFilterMap c batch with ⟨out, c'⟩
  rw [hp] at h1 h2
  have h1' : c'.pos = none := h1
  have hs : cursorSweep c' = [] := by simp [cursorSweep, h1']
  refine ⟨by simpa [cursorProcess, hp] using h1, ?_⟩
  simpa [cursorProcess, hp, hs] using h2

/-- Batch-sequence version of `cursorProcessPosNone`. -/
theorem cursorProcessAllPosNone (bs : List (List InputEvent)) :
    ∀ c : Cursor, c.pos = none →
    (∀ batch ∈ bs, ∀ e ∈ batch, isMouseMovedEv e = false) →
    (cursorProcessAll c bs).2.pos = none ∧
    List.Forall₂ (fun outB inB => outB.Sublist inB)
      (cursorProcessAll c bs).1 bs := by
  induction bs with
  | nil =>
    intro c h _
    exact ⟨by simpa [cursorProcessAll] using h, by simp [cursorProcessAll]⟩
  | cons batch rest ih =>
    intro c h hb
    have hbh := hb batch (List.mem_cons_self _ _)
    have hbr : ∀ b' ∈ rest, ∀ e ∈ b', isMouseMovedEv e = false :=
      fun b' h' => hb b' (List.mem_cons_of_mem _ h')
    obtain ⟨h1, h2⟩ := cursorProcessPosNone c batch h hbh
    rcases hp : cursorProcess c batch with ⟨out, c'⟩
    rw [hp] at h1 h2
    obtain ⟨ih1, ih2⟩ := ih c' h1 hbr
    exact ⟨by simpa [cursorProcessAll, hp] using ih1,
           by simpa [cursorProcessAll, hp] using List.Forall₂.cons h2 ih2⟩

/-- Sublist containment transfers "contains no cursor event" from the input
batches to the output batches. -/
theorem forallSublistNoCursor :
    ∀ {l1 l2 : List (List InputEvent)},
    List.Forall₂ (fun outB inB => outB.Sublist inB) l1 l2 →
    (∀ b ∈ l2, ∀ e ∈ b, isCursorEv e = false) →
    ∀ o ∈ l1, ∀ e ∈ o, isCursorEv e = false := by
  intro l1 l2 hf
  induction hf with
  | nil => simp
  | @cons o i l1' l2' hoi _ ih =>
    intro hin o' ho' e he
    rcases List.mem_cons.mp ho' with h | h
    · subst h
      exact hin i (List.mem_cons_self _ _) e (hoi.subset he)
    · exact ih (fun b hb => hin b (List.mem_cons_of_mem _ hb)) o' h e he

/-- C5.  Starting from `Cursor::new`, a sequence of batches holding no
pointer-move event leaves the position unknown forever; every output batch is
a sublist of its input batch (so nothing — in particular no `CursorPressed`
or `CursorReleased` — is ever synthesized, even when button releases occur);
consequently, if the inputs carry no cursor events of their own, no output
ever contains one. -/
theorem cursorNoPosNoCursorEvents (bs : List (List InputEvent))
    (h : ∀ batch ∈ bs, ∀ e ∈ batch, isMouseMovedEv e = false) :
    (cursorProcessAll Cursor.new bs).2.pos = none ∧
    List.Forall₂ (fun outB inB => outB.Sublist inB)
      (cursorProcessAll Cursor.new bs).1 bs ∧
    ((∀ batch ∈ bs, ∀ e ∈ batch, isCursorEv e = false) →
      ∀ outB ∈ (cursorProcessAll Cursor.new bs).1,
        ∀ e ∈ outB, isCursorEv e = false) := by
  obtain ⟨h1, h2⟩ := cursorProcessAllPosNone bs Cursor.new rfl h
  exact ⟨h1, h2, fun hin => forallSublistNoCursor h2 hin⟩

/-- C5 witness: presses and releases with no move, plus an unrelated
intermediate event, produce outputs free of cursor events. -/
theorem cursorNoPosNoCursorEventsWitness :
    (cursorProcessAll Cursor.new
        [[.Raw (.MouseInput .Pressed .Left)],
         [.Raw (.MouseInput .Released .Left)],
         [.Intermediate (.ButtonPressed 7)]]).2.pos = none ∧
    List.Forall₂ (fun outB inB => outB.Sublist inB)
      (cursorProcessAll Cursor.new
        [[.Raw (.MouseInput .Pressed .Left)],
         [.Raw (.MouseInput .Released .Left)],
         [.Intermediate (.ButtonPressed 7)]]).1
      [[.Raw (.MouseInput .Pressed .Left)],
       [.Raw (.MouseInput .Released .Left)],
       [.Intermediate (.ButtonPressed 7)]] ∧
    ((∀ batch ∈ ([[.Raw (.MouseInput .Pressed .Left)],
         [.Raw (.MouseInput .Released .Left)],
         [.Intermediate (.ButtonPressed 7)]] : List (List InputEvent)),
        ∀ e ∈ batch, isCursorEv e = false) →
      ∀ outB ∈ (cursorProcessAll Cursor.new
        [[.Raw (.MouseInput .Pressed .Left)],
         [.Raw (.MouseInput .Released .Left)],
         [.Intermediate (.ButtonPressed 7)]]).1,
        ∀ e ∈ outB, isCursorEv e = false) :=
  cursorNoPosNoCursorEvents
    [[.Raw (.MouseInput .Pressed .Left)],
     [.Raw (.MouseInput .Released .Left)],
     [.Intermediate (.ButtonPressed 7)]] (by decide)

/-- C6.  With `special = Some({button: Right, ..})`: (1) from a state where
both slots are empty, an in-rect `CursorPressed(x,y,Right)` emits
`SelectableSpecialPressed(id,x,y)` and sets only the special slot — the
resulting state is `a` with `special_pressed := some (x,y)`, whose primary
`pressed` slot is still `none`; (2) a left press never modifies
`special_pressed`, whatever the state. -/
theorem areaSpecialIndependence :
    (∀ (a : SelectableArea) (s : SpecialSelect) (x y : Int),
      a.special = some s → s.button = .Right → a.pressed = none →
      a.special_pressed = none → a.inside x y = true →
      areaStep a (.Intermediate (.CursorPressed x y .Right)) =
        some (.Intermediate (.SelectableSpecialPressed a.id x y),
              { a with special_pressed := some (x, y) }) ∧
      ({ a with special_pressed := some (x, y) } : SelectableArea).pressed
        = none) ∧
    (∀ (a : SelectableArea) (s : SpecialSelect) (x y : Int),
      a.special = some s → s.button = .Right →
      (areaStep a (.Intermediate (.CursorPressed x y .Left))).map
          (fun p => p.2.special_pressed) = some a.special_pressed) := by
  constructor
  · intro a s x y hs hb hp hsp hin
    refine ⟨?_, hp⟩
    simp [areaStep, hs, hb, hp, hsp, hin, SelectableArea.specialIs]
  · intro a s x y hs hb
    have hsi : a.specialIs .Left = false := by
      simp [SelectableArea.specialIs, hs, hb]
    rcases hp : a.pressed with _ | old <;> by_cases hin : a.inside x y <;>
      simp [areaStep, hp, hin, hsi] <;>
      by_cases hxy : old = (x, y) <;>
      (simp [hxy]; exact ⟨_, a, ⟨rfl, rfl⟩, rfl⟩)

/-- C6 witness: concrete area with a right-button special channel, pressed
with the right button at `(50,50)`, then (the second half) with the left
button. -/
theorem areaSpecialIndependenceWitness :
    (areaStep (SelectableArea.new 3 40 40 20 20
        (some { button := .Right, touch_time := 0 }))
        (.Intermediate (.CursorPressed 50 50 .Right)) =
      some (.Intermediate (.SelectableSpecialPressed 3 50 50),
            { SelectableArea.new 3 40 40 20 20
                (some { button := .Right, touch_time := 0 }) with
              special_pressed := some (50, 50) })) ∧
    ((areaStep (SelectableArea.new 3 40 40 20 20
        (some { button := .Right, touch_time := 0 }))
        (.Intermediate (.CursorPressed 50 50 .Left))).map
          (fun p => p.2.special_pressed) = some none) :=
  ⟨(areaSpecialIndependence.1 (SelectableArea.new 3 40 40 20 20
      (some { button := .Right, touch_time := 0 }))
      { button := .Right, touch_time := 0 } 50 50
      rfl rfl rfl rfl (by decide)).1,
   areaSpecialIndependence.2 (SelectableArea.new 3 40 40 20 20
      (some { button := .Right, touch_time := 0 }))
      { button := .Right, touch_time := 0 } 50 50 rfl rfl⟩

/-- The step of `SelectableArea::process` on a `CursorPressed` event never
reaches an `unwrap` of a `None` slot: the first-matching-arm discipline
guarantees the drag arms only run with the corresponding slot filled. -/
theorem areaStepPressedIsSome (a : SelectableArea) (x y : Int)
    (b : MouseButton) :
    (areaStep a (.Intermediate (.CursorPressed x y b))).isSome := by
  simp only [areaStep]
  rcases hp : a.pressed with _ | old <;>
    rcases hsp : a.special_pressed with _ | sold <;>
    by_cases hb : b = .Left <;>
    by_cases hin : a.inside x y <;>
    by_cases hsi : a.specialIs b <;>
    simp [hp, hsp, hb, hin, hsi] <;>
    try (split <;> simp)

/-- The step of `SelectableArea::process` is total on every event: the only
potentially panicking arms are the two pressed-drag arms handled by
`areaStepPressedIsSome`; every other arm returns unconditionally. -/
theorem areaStepIsSome (a : SelectableArea) (e : InputEvent) :
    (areaStep a e).isSome := by
  rcases e with re | ie
  · cases re <;> simp [areaStep]
  · cases ie
    case CursorPressed x y b => exact areaStepPressedIsSome a x y b
    case CursorReleased x y b =>
      simp only [areaStep]
      split
      · simp
      · split <;> simp
    all_goals simp [areaStep]

/-- C7.  `SelectableArea::process` is total: for every filter state and every
input batch — however malformed — it returns a defined output batch; in the
embedding, where a panicking `unwrap` is `none`, the result is always `some`.
(`Cursor::process` and `Button::process` contain no partial operation at all
and are embedded as total functions, so their totality is by construction.) -/
theorem areaProcessTotal : ∀ (batch : List InputEvent) (a : SelectableArea),
    (areaProcess a batch).isSome := by
  intro batch
  induction batch with
  | nil => intro a; simp [areaProcess]
  | cons e rest ih =>
    intro a
    have h := areaStepIsSome a e
    rcases hp : areaStep a e with _ | ⟨oe, a'⟩
    · rw [hp] at h
      simp at h
    · have h2 := ih a'
      rcases hq : areaProcess a' rest with _ | ⟨os, a''⟩
      · rw [hq] at h2
        simp at h2
      · simp [areaProcess, hp, hq]

/-- With a special channel bound to the left button and an empty special
slot, one step never panics, never fills the special slot, never changes the
configuration, and emits either the input event itself or a non-special
event: the primary-channel arms shadow the special-channel arms. -/
theorem areaStepLeftSpecialDeadAux (a : SelectableArea) (s : SpecialSelect)
    (hs : a.special = some s) (hb : s.button = .Left)
    (hsp : a.special_pressed = none) (e oe : InputEvent) (a' : SelectableArea)
    (h : areaStep a e = some (oe, a')) :
    a'.special = a.special ∧ a'.special_pressed = none ∧
    (oe = e ∨ isSpecialEv oe = false) := by
  unfold areaStep at h
  rcases e with re | ie
  · cases re <;> simp_all [isSpecialEv]
  · cases ie <;> try simp_all [isSpecialEv]
    case CursorPressed x y b =>
      split at h <;> try split at h <;> try split at h <;> try split at h
      all_goals first
        | (rw [Option.some.injEq, Prod.mk.injEq] at h
           obtain ⟨rfl, rfl⟩ := h
           first
             | exact ⟨rfl, hsp, Or.inr rfl⟩
             | exact ⟨rfl, hsp, Or.inl rfl⟩
             | (simp_all [SelectableArea.specialIs]; done))
        | exact absurd h (by simp)
        | (simp_all [SelectableArea.specialIs]; done)
    case CursorReleased x y b =>
      split at h <;> try split at h
      all_goals
        (rw [Option.some.injEq, Prod.mk.injEq] at h
         obtain ⟨rfl, rfl⟩ := h
         first
           | exact ⟨rfl, hsp, Or.inr rfl⟩
           | exact ⟨rfl, hsp, Or.inl rfl⟩
           | simp_all [SelectableArea.specialIs])

theorem areaStepLeftSpecialDead (a : SelectableArea) (s : SpecialSelect)
    (hs : a.special = some s) (hb : s.button = .Left)
    (hsp : a.special_pressed = none) (e : InputEvent) :
    ∃ oe a', areaStep a e = some (oe, a') ∧
      a'.special = a.special ∧ a'.special_pressed = none ∧
      (oe = e ∨ isSpecialEv oe = false) := by
  obtain ⟨⟨oe, a'⟩, hp2⟩ := Option.isSome_iff_exists.mp (areaStepIsSome a e)
  obtain ⟨h1, h2, h3⟩ := areaStepLeftSpecialDeadAux a s hs hb hsp e oe a' hp2
  exact ⟨oe, a', hp2, h1, h2, h3⟩

/-- C10.  With `special = Some({button: Left, ..})` the special channel is
dead: starting from any state whose special slot is empty (as after `new`),
processing any batch never panics, never fills the special slot, and every
output event is either an input event passed through or a non-special event
— no `SelectableSpecialPressed/Dragged/Released` is ever synthesized. -/
theorem areaSpecialLeftDead :
    ∀ (batch : List InputEvent) (a : SelectableArea) (s : SpecialSelect),
    a.special = some s → s.button = .Left → a.special_pressed = none →
    ∃ out a', areaProcess a batch = some (out, a') ∧
      a'.special_pressed = none ∧
      ∀ e ∈ out, e ∈ batch ∨ isSpecialEv e = false := by
  intro batch
  induction batch with
  | nil =>
    intro a s hs hb hsp
    exact ⟨[], a, by simp [areaProcess], hsp, by simp⟩
  | cons e rest ih =>
    intro a s hs hb hsp
    obtain ⟨oe, a', hstep, hspec, hsp', hoe⟩ :=
      areaStepLeftSpecialDead a s hs hb hsp e
    obtain ⟨os, a'', hrest, hsp'', hmem⟩ :=
      ih a' s (hspec.trans hs) hb hsp'
    refine ⟨oe :: os, a'', by simp [areaProcess, hstep, hrest], hsp'', ?_⟩
    intro x hx
    rcases List.mem_cons.mp hx with h | h
    · rcases hoe with h' | h'
      · exact Or.inl (by rw [h, h']; exact List.mem_cons_self _ _)
      · exact Or.inr (h ▸ h')
    · rcases hmem x h with h' | h'
      · exact Or.inl (List.mem_cons_of_mem _ h')
      · exact Or.inr h'

/-- C10 witness: a left-button special area fed a left click sequence: the
left press and release are captured by the primary channel. -/
theorem areaSpecialLeftDeadWitness :
    ∃ out a', areaProcess (SelectableArea.new 3 40 40 20 20
        (some { button := .Left, touch_time := 0 }))
        [.Intermediate (.CursorPressed 50 50 .Left),
         .Intermediate (.CursorReleased 50 50 .Left)] = some (out, a') ∧
      a'.special_pressed = none ∧
      ∀ e ∈ out,
        e ∈ [InputEvent.Intermediate (.CursorPressed 50 50 .Left),
             .Intermediate (.CursorReleased 50 50 .Left)] ∨
        isSpecialEv e = false :=
  areaSpecialLeftDead
    [.Intermediate (.CursorPressed 50 50 .Left),
     .Intermediate (.CursorReleased 50 50 .Left)]
    (SelectableArea.new 3 40 40 20 20
      (some { button := .Left, touch_time := 0 }))
    { button := .Left, touch_time := 0 } rfl rfl rfl

/-- The code's cofactor-pair expansion in `Matrix::inv` computes exactly the
mathematical determinant of the 4×4 matrix. -/
theorem detEqDetExpand (m : Matrix) : m.det = m.detExpand := by
  simp only [Matrix.det, Matrix.detExpand, det3, Matrix.s0, Matrix.s1,
    Matrix.s2, Matrix.s3, Matrix.s4, Matrix.s5, Matrix.c0, Matrix.c1,
    Matrix.c2, Matrix.c3, Matrix.c4, Matrix.c5]
  ring

/-- C8.  `Matrix::inv` fails (panics, here `none`) exactly on matrices of
zero determinant; the code's internal `det` is the true determinant; and
whenever it returns a result, that result is a genuine two-sided inverse.
(Arithmetic idealised as exact rationals; the source compares `det == 0.0`
exactly.) -/
theorem matrixInvSpec (m : Matrix) :
    (m.inv = none ↔ m.detExpand = 0) ∧
    m.det = m.detExpand ∧
    (∀ r, m.inv = some r →
      m.mul r = Matrix.ident ∧ r.mul m = Matrix.ident) := by
  refine ⟨?_, detEqDetExpand m, ?_⟩
  · rw [Matrix.inv, ← detEqDetExpand m]
    split <;> simp_all
  · intro r hr
    rw [Matrix.inv] at hr
    split at hr
    · exact absurd hr (by simp)
    case isFalse h =>
      simp only [Option.some.injEq] at hr
      subst hr
      constructor <;>
        (simp only [Matrix.mul, Matrix.ident, Matrix.mk.injEq]
         simp only [Matrix.det, Matrix.s0, Matrix.s1, Matrix.s2, Matrix.s3,
           Matrix.s4, Matrix.s5, Matrix.c0, Matrix.c1, Matrix.c2, Matrix.c3,
           Matrix.c4, Matrix.c5] at h ⊢
         refine ⟨?_, ?_, ?_, ?_, ?_, ?_, ?_, ?_, ?_, ?_, ?_, ?_, ?_, ?_, ?_,
           ?_⟩ <;>
         · field_simp
           ring)

/-- C8 witness: the identity matrix has determinant 1 ≠ 0 and `inv` returns
the identity, a two-sided inverse of it. -/
theorem matrixInvSpecWitness :
    Matrix.ident.mul Matrix.ident = Matrix.ident ∧
    Matrix.ident.mul Matrix.ident = Matrix.ident :=
  (matrixInvSpec Matrix.ident).2.2 Matrix.ident (by
    rw [Matrix.inv]
    norm_num [Matrix.det, Matrix.s0, Matrix.s1, Matrix.s2, Matrix.s3,
      Matrix.s4, Matrix.s5, Matrix.c0, Matrix.c1, Matrix.c2, Matrix.c3,
      Matrix.c4, Matrix.c5, Matrix.ident])

/-- C9 counterexample.  Interpolating the identity quaternion with itself —
a pair that is *not* exactly opposed (the identity is not its own antipode)
— also trips the `sin_htheta == 0` check: `dot = 1`, `acos 1 = 0`,
`sin 0 = 0`, so `interpolate` aborts although the claim promises a result
for every non-antipodal pair. -/
theorem quatInterpSelfCex :
    Quat.ident.interpolate Quat.ident (1 / 2) = none ∧
    Quat.ident ≠ Quat.ident.neg := by
  constructor
  · have hd : Quat.ident.dot Quat.ident = 1 := by
      simp [Quat.dot, Quat.ident]
    rw [Quat.interpolate]
    simp [hd, Real.arccos_one]
  · intro h
    have hw := congrArg Quat.w h
    simp only [Quat.ident, Quat.neg] at hw
    norm_num at hw

/-- C9 (amended).  `Quaternion::interpolate` aborts exactly when
`sin(acos(dot))` vanishes, i.e. exactly when the dot product of the two
quaternions lies outside the open interval `(-1, 1)`: for unit quaternions
that means the rotations are exactly opposed (`dot = -1`) *or* exactly
aligned (`dot = 1`, e.g. interpolating a rotation with itself); for every
pair with `-1 < dot < 1` it returns an interpolated quaternion. -/
theorem quatInterpNoneIff (q o : Quat) (ratio : ℝ) :
    q.interpolate o ratio = none ↔ (q.dot o ≤ -1 ∨ 1 ≤ q.dot o) := by
  rw [Quat.interpolate]
  split
  case isTrue h =>
    rw [Real.sin_arccos] at h
    have h1 : 1 - q.dot o ^ 2 ≤ 0 := Real.sqrt_eq_zero'.mp h
    refine iff_of_true rfl ?_
    rcases le_or_lt (q.dot o) 0 with h0 | h0
    · exact Or.inl (by nlinarith)
    · exact Or.inr (by nlinarith)
  case isFalse h =>
    refine iff_of_false (by simp) ?_
    rintro (hd | hd) <;>
      (apply h; rw [Real.sin_arccos]; exact Real.sqrt_eq_zero'.mpr (by nlinarith))

end Anima
